import Mathlib

/-!
Verification of the Arudhra Fashions backend against its design document.

Two subsystems are embedded here, translated from the JavaScript source:

* the PDF invoice renderer `generateInvoicePDF` (file `src/unnamed/part_000`),
  modelled as a pure function from an order, a user and an environment to a
  trace of drawing / I-O events together with the returned artifact reference
  (or the thrown validation error);
* the password-reset endpoints of `src/backend/routes/authRoutes.js`
  (`POST /api/auth/forgot-password` and `POST /api/auth/reset-password`),
  modelled as pure state transformers on a list of user records.

JavaScript numbers are modelled as rationals together with an explicit `nan`
value; JavaScript strings as Lean strings.  Effects performed by the renderer
(directory creation, stream opening, drawing text and rectangles, page breaks)
are recorded as an explicit event list in program order, so that statements
such as "X happens before the items check" become statements about the
recorded trace.
-/

namespace AF

/-! ### JavaScript value model -/

/-- JSVal models the JavaScript values that can appear in the loosely-typed
input fields of an order: `undefined` for a missing field, a string, a number,
or a `Date` object (`dateObj` carries its epoch-milliseconds value). -/
inductive JSVal where
  | undef
  | str (s : String)
  | num (q : ℚ)
  | dateObj (ms : ℚ)
  deriving DecidableEq

/-- Truthiness of a `JSVal`, as used by the JavaScript `||` operator:
`undefined`, the empty string and the number `0` are falsy. -/
def jsTruthy : JSVal → Bool
  | .undef => false
  | .str s => s ≠ ""
  | .num q => q ≠ 0
  | .dateObj _ => true

/-- The JavaScript `a || b` operator on `JSVal`. -/
def jsOr (a b : JSVal) : JSVal := if jsTruthy a then a else b

/-- The JavaScript `a || b` operator specialised to string fields
(the empty string is the only falsy string). -/
def jsOrS (a b : String) : String := if a = "" then b else a

/-- JNum models the result of JavaScript numeric coercion: either a finite
number (a rational) or `NaN`. -/
inductive JNum where
  | nan
  | num (q : ℚ)
  deriving DecidableEq

/-- Numeric value of a list of decimal digit characters. -/
def digitsVal (l : List Char) : ℕ :=
  l.foldl (fun a c => 10 * a + (c.toNat - 48)) 0

/-- Modelled JavaScript `parseFloat` on a string: skip leading whitespace,
read an optional sign, then a run of decimal digits with an optional fraction
part; any trailing characters are ignored.  If no digits are read the result
is `NaN`.  Exponent forms (`1e3`) and `Infinity`, which no claim exercises,
are not modelled (their digit prefix is parsed instead). -/
def parseFloatStr (s : String) : JNum :=
  let cs := s.data.dropWhile fun c => c = ' ' ∨ c = '\t' ∨ c = '\n' ∨ c = '\r'
  let signed : Bool × List Char :=
    match cs with
    | '-' :: t => (true, t)
    | '+' :: t => (false, t)
    | _ => (false, cs)
  let intD := signed.2.takeWhile Char.isDigit
  let rest := signed.2.dropWhile Char.isDigit
  let fracD : List Char :=
    match rest with
    | '.' :: t => t.takeWhile Char.isDigit
    | _ => []
  if intD = [] ∧ fracD = [] then .nan
  else
    let v : ℚ := (digitsVal intD : ℚ) + (digitsVal fracD : ℚ) / 10 ^ fracD.length
    .num (if signed.1 then -v else v)

/-- Modelled JavaScript `parseFloat` on a `JSVal`: numbers pass through,
strings are parsed, `undefined` and `Date` objects give `NaN` (a date's
string form starts with a letter, so `parseFloat` yields `NaN` on it). -/
def jsParseFloat : JSVal → JNum
  | .num q => .num q
  | .str s => parseFloatStr s
  | .undef => .nan
  | .dateObj _ => .nan

/-- Multiplication of a possibly-NaN number by a plain number
(`NaN` is absorbing, as in JavaScript). -/
def jmul : JNum → ℚ → JNum
  | .nan, _ => .nan
  | .num q, k => .num (q * k)

/-- The JavaScript comparison `v > 0` (false on `NaN`). -/
def jgtZero : JNum → Bool
  | .nan => false
  | .num q => 0 < q

/-- Two-character decimal rendering of `m` (intended for `m < 100`),
as produced for the fraction part of `toFixed(2)`. -/
def twoDigitStr (m : ℕ) : String :=
  String.mk [Nat.digitChar (m / 10), Nat.digitChar (m % 10)]

/-- Modelled `Number.prototype.toFixed(2)` on a finite value: following the
ECMAScript algorithm, the sign is extracted first and the magnitude is
rounded to the nearest multiple of 1/100, ties away from zero.  The rounded
hundredths are computed on the numerator and denominator directly:
`⌊|q| * 100 + 1/2⌋ = (200 * |q.num| + q.den) / (2 * q.den)` in ℕ. -/
def fixed2 (q : ℚ) : String :=
  let m : ℕ := (200 * q.num.natAbs + q.den) / (2 * q.den)
  (if q < 0 then "-" else "") ++ Nat.repr (m / 100) ++ "." ++ twoDigitStr (m % 100)

/-- Modelled `toFixed(2)` on a possibly-NaN value: `NaN.toFixed(2)`
evaluates to the string `"NaN"`. -/
def jToFixed2 : JNum → String
  | .nan => "NaN"
  | .num q => fixed2 q

/-- Monetary string as rendered by the invoice: the source uses the prefix
`"Rs. "` followed by `value.toFixed(2)`. -/
def moneyStr (v : JNum) : String := "Rs. " ++ jToFixed2 v

/-! ### Page geometry constants (source lines 62-66 and 248-262) -/

def pageWidth : ℚ := 595.28
def pageHeight : ℚ := 841.89
def margin : ℚ := 40
def contentWidth : ℚ := pageWidth - margin * 2

def colItem : ℚ := margin + 10
def colItemWidth : ℚ := 180
def colSize : ℚ := colItem + colItemWidth + 8
def colSizeWidth : ℚ := 42
def colColor : ℚ := colSize + colSizeWidth + 8
def colColorWidth : ℚ := 52
def colQty : ℚ := colColor + colColorWidth + 8
def colQtyWidth : ℚ := 32
def colPrice : ℚ := colQty + colQtyWidth + 8
def colPriceWidth : ℚ := 70
def colTotal : ℚ := colPrice + colPriceWidth + 8
def colTotalWidth : ℚ := 80

/-! ### Colors (source lines 10-20; `hexToRgb` of `#7A5051` inlined to
`rgb(122, 80, 81)` since 0x7A = 122, 0x50 = 80, 0x51 = 81) -/

def colorBackground : String := "#FAF8F5"
def colorPrimaryLight : String := "#CAB19B"
def headerFill : String := "rgb(122, 80, 81)"

/-! ### Environment and event trace -/

/-- Env packages the ambient effects the renderer consults: filesystem
probes, the current time, the host's date parsing and locale formatting, and
the document library's text measurement.  Each field corresponds to a call
the source makes on its surroundings. -/
structure Env where
  /-- Result of `fs.existsSync(invoicesDir)` (source line 43). -/
  dirExists : Bool
  /-- Result of `fs.existsSync` on a candidate logo path (lines 76-81). -/
  fileExists : String → Bool
  /-- `Date.now()` / `new Date()` at render time, in epoch milliseconds. -/
  nowMs : ℕ
  /-- JavaScript date-string parsing: `some t` when `new Date(s)` is a valid
  date with timestamp `t`, `none` when it is an Invalid Date. -/
  parseDate : String → Option ℚ
  /-- `Date.prototype.toLocaleDateString("en-IN", ...)` on a valid date. -/
  fmtDate : ℚ → String
  /-- `doc.heightOfString(text, width)` of the document library. -/
  heightOfString : String → ℚ → ℚ

/-- Text styling state at a `doc.text` call: the font size and font name set
by the preceding `fontSize`/`font` calls.  Fill colors and the width/align
text options are not recorded for text events; no claim depends on them. -/
structure TextStyle where
  size : ℚ
  font : String
  deriving DecidableEq

/-- One recorded effect of the renderer, in program order. -/
inductive Ev where
  /-- `fs.mkdirSync` (line 44). -/
  | mkdir (path : String)
  /-- `fs.createWriteStream(filepath)` (line 59); `flags` records the open
  mode: `createWriteStream` with no options uses the default flags `"w"`
  (create or truncate); exclusive creation would be `"wx"`. -/
  | openStream (path : String) (flags : String)
  /-- `doc.image` (line 94). -/
  | image (path : String) (x y w h : ℚ)
  /-- `doc.text` (with the ambient size/font). -/
  | text (st : TextStyle) (s : String) (x y : ℚ)
  /-- `doc.rect.fill` or `doc.rect.stroke`; `stroke` is false for a fill. -/
  | rect (x y w h : ℚ) (color : String) (stroke : Bool)
  /-- `doc.addPage` (line 295). -/
  | addPage
  /-- `doc.end` (line 431). -/
  | endDoc
  deriving DecidableEq

/-! ### Input data model -/

/-- Shipping address fields read by the renderer (lines 187-213).  A missing
or empty field is the empty string, which `||` treats identically. -/
structure Address where
  name : String := ""
  mobile : String := ""
  email : String := ""
  address : String := ""
  city : String := ""
  state : String := ""
  zipCode : String := ""
  zip : String := ""
  deriving DecidableEq

/-- One line item (lines 285-291).  `productName` models `item.product?.name`.
`lineTotal` models a stored per-line total field on the incoming item object;
the renderer never reads it (claim C6).  `quantity` is modelled as a number
(`item.quantity || 1` maps 0 and missing to 1). -/
structure Item where
  name : String := ""
  productName : String := ""
  size : String := ""
  color : String := ""
  quantity : ℚ := 0
  price : JSVal := .undef
  lineTotal : JSVal := .undef
  deriving DecidableEq

/-- The `order.items` field: missing (`undefined`), present but not an array,
or an array of items.  The source rejects the first two and the empty array
(line 233). -/
inductive ItemsField where
  | missing
  | notArray
  | arr (l : List Item)
  deriving DecidableEq

/-- Order fields read by the renderer. -/
structure Order where
  orderId : String := ""
  createdAt : JSVal := .undef
  orderDate : JSVal := .undef
  date : JSVal := .undef
  items : ItemsField := .missing
  subtotal : JSVal := .undef
  shippingCost : JSVal := .undef
  tax : JSVal := .undef
  total : JSVal := .undef
  shippingAddress : Option Address := none
  deriving DecidableEq

/-- The user record passed to `generateInvoicePDF` (name, email, mobile). -/
structure JUser where
  name : String := ""
  mobile : String := ""
  email : String := ""
  deriving DecidableEq

/-- Result of a render: the promise either rejects with the thrown error
message (carrying the effects already performed) or resolves to the artifact
reference with the full effect trace. -/
inductive RenderResult where
  | err (msg : String) (trace : List Ev)
  | ok (ref : String) (trace : List Ev)
  deriving DecidableEq

/-- Trace of effects recorded by a render result. -/
def RenderResult.trace : RenderResult → List Ev
  | .err _ tr => tr
  | .ok _ tr => tr

/-- Whether the render resolved successfully. -/
def RenderResult.isOk : RenderResult → Bool
  | .err _ _ => false
  | .ok _ _ => true

/-- The artifact reference a successful render resolves to. -/
def RenderResult.ref : RenderResult → Option String
  | .err _ _ => none
  | .ok r _ => some r

/-! ### Renderer sections -/

def invoicesDir : String := "uploads/invoices"

/-- Generated file name (line 48): `invoice-<orderId>-<Date.now()>.pdf`. -/
def invoiceFileName (env : Env) (o : Order) : String :=
  "invoice-" ++ o.orderId ++ "-" ++ Nat.repr env.nowMs ++ ".pdf"

/-- Candidate logo locations (lines 69-73), relative to the repository. -/
def logoPaths : List String := ["public/Logo.png", "Logo.png", "Logo.PNG"]

/-- First candidate logo path that exists (lines 75-81). -/
def logoPathFound (env : Env) : Option String := logoPaths.find? env.fileExists

def logoSize : ℚ := 130
def invoiceTitleY : ℚ := margin + 30
def invoiceInfoY : ℚ := invoiceTitleY + 35

/-- Modelled `new Date(v)`: `some` timestamp for a valid date, `none` for an
Invalid Date.  `new Date(undefined)` is an Invalid Date. -/
def jsNewDate (env : Env) : JSVal → Option ℚ
  | .dateObj t => some t
  | .num q => some q
  | .str s => env.parseDate s
  | .undef => none

/-- Modelled `toLocaleDateString`: on an Invalid Date it returns the string
`"Invalid Date"` — it does not throw. -/
def jsToLocaleDateString (env : Env) : Option ℚ → String
  | none => "Invalid Date"
  | some t => env.fmtDate t

/-- The date string drawn in the header (lines 130-146).  The source wraps
the formatting in try/catch with a current-date fallback, but
`toLocaleDateString` returns `"Invalid Date"` rather than throwing, so the
catch branch is unreachable and is not modelled. -/
def invoiceDateString (env : Env) (o : Order) : String :=
  jsToLocaleDateString env
    (jsNewDate env
      (jsOr o.createdAt (jsOr o.orderDate (jsOr o.date (.dateObj (env.nowMs : ℚ))))))

def st36b : TextStyle := ⟨36, "Helvetica-Bold"⟩
def st12b : TextStyle := ⟨12, "Helvetica-Bold"⟩
def st11b : TextStyle := ⟨11, "Helvetica-Bold"⟩
def st11 : TextStyle := ⟨11, "Helvetica"⟩
def st10 : TextStyle := ⟨10, "Helvetica"⟩
def st9 : TextStyle := ⟨9, "Helvetica"⟩
def st13b : TextStyle := ⟨13, "Helvetica-Bold"⟩

/-- Header section events (lines 83-160): optional logo image, centered
title, invoice number block, date block. -/
def headerEvs (env : Env) (o : Order) : List Ev :=
  (match logoPathFound env with
    | some lp => [.image lp (pageWidth - margin - logoSize) margin logoSize logoSize]
    | none => []) ++
  [ .text st36b "INVOICE" margin invoiceTitleY,
    .text st10 "Invoice No:" margin invoiceInfoY,
    .text st12b (jsOrS o.orderId "N/A") margin (invoiceInfoY + 15),
    .text st10 "Date:" margin (invoiceInfoY + 35),
    .text st12b (invoiceDateString env o) margin (invoiceInfoY + 50) ]

def billToBoxY : ℚ := invoiceInfoY + 90
def billToBoxHeight : ℚ := 100

/-- Optional address lines of the billing box (lines 200-214): the street
line when present, then the comma-joined city/state/zip line when non-empty.
The cursor starts at billToBoxY + 43 (name at +25 plus 18) and each drawn
line advances it by 15.  Returns the events and the cursor after them. -/
def billingAddrEvs (o : Order) : List Ev × ℚ :=
  match o.shippingAddress with
  | none => ([], billToBoxY + 43)
  | some ad =>
    let p1 : List Ev × ℚ :=
      if ad.address ≠ ""
      then ([.text st9 ad.address (margin + 10) (billToBoxY + 43)], billToBoxY + 58)
      else ([], billToBoxY + 43)
    let csz := String.intercalate ", "
      (([ad.city, ad.state, jsOrS ad.zipCode ad.zip]).filter (fun s => s ≠ ""))
    if csz ≠ "" then (p1.1 ++ [.text st9 csz (margin + 10) p1.2], p1.2 + 15) else p1

/-- Mobile line of the billing box (lines 216-219). -/
def billingMobileEvs (o : Order) (u : JUser) : List Ev × ℚ :=
  let base := billingAddrEvs o
  let customerMobile := jsOrS u.mobile (jsOrS ((o.shippingAddress.map Address.mobile).getD "") "")
  if customerMobile ≠ ""
  then (base.1 ++ [.text st9 ("Mobile: " ++ customerMobile) (margin + 10) base.2], base.2 + 15)
  else base

/-- Email line of the billing box (lines 221-224). -/
def billingEmailEvs (o : Order) (u : JUser) : List Ev :=
  let base := billingMobileEvs o u
  let customerEmail := jsOrS u.email (jsOrS ((o.shippingAddress.map Address.email).getD "") "")
  if customerEmail ≠ ""
  then base.1 ++ [.text st9 ("Email: " ++ customerEmail) (margin + 10) base.2]
  else base.1

/-- Billing section events (lines 162-226): fixed-size bordered box, section
header, customer name, then the optional address/mobile/email lines. -/
def billingEvs (o : Order) (u : JUser) : List Ev :=
  [ .rect margin billToBoxY 280 billToBoxHeight colorBackground false,
    .rect margin billToBoxY 280 billToBoxHeight colorPrimaryLight true,
    .text st12b "Bill To:" (margin + 10) (billToBoxY + 10),
    .text st11b (jsOrS u.name (jsOrS ((o.shippingAddress.map Address.name).getD "") "Customer"))
      (margin + 10) (billToBoxY + 25) ] ++ billingEmailEvs o u

/-- All events performed before the items validation at line 233: directory
creation (when absent), opening of the output stream, header and billing
sections. -/
def preTableEvs (env : Env) (o : Order) (u : JUser) : List Ev :=
  (if env.dirExists then [] else [.mkdir invoicesDir]) ++
  [.openStream (invoicesDir ++ "/" ++ invoiceFileName env o) "w"] ++
  headerEvs env o ++ billingEvs o u

def headerRowHeight : ℚ := 32
def tableStartY : ℚ := billToBoxY + billToBoxHeight + 20 + 10
def itemsStartY : ℚ := tableStartY + headerRowHeight + 12

/-- First-page table header row (lines 237-278). -/
def tableHeaderEvs : List Ev :=
  [ .rect margin tableStartY contentWidth headerRowHeight headerFill false,
    .text st11b "Item" colItem (tableStartY + 10),
    .text st11b "Size" colSize (tableStartY + 10),
    .text st11b "Color" colColor (tableStartY + 10),
    .text st11b "Qty" colQty (tableStartY + 10),
    .text st11b "Price" colPrice (tableStartY + 10),
    .text st11b "Total" colTotal (tableStartY + 10) ]

/-- Pagination threshold (line 294): a new page starts when the cursor is
past `pageHeight - 250`. -/
def thresholdY : ℚ := pageHeight - 250

/-- Header row redrawn on a continuation page (lines 296-308): after
`addPage` the cursor is `margin + 20`, the header background is drawn 10
above it and the labels 2 above it. -/
def newPageHeaderEvs : List Ev :=
  [ .rect margin (margin + 20 - 10) contentWidth headerRowHeight headerFill false,
    .text st11b "Item" colItem (margin + 20 - 2),
    .text st11b "Size" colSize (margin + 20 - 2),
    .text st11b "Color" colColor (margin + 20 - 2),
    .text st11b "Qty" colQty (margin + 20 - 2),
    .text st11b "Price" colPrice (margin + 20 - 2),
    .text st11b "Total" colTotal (margin + 20 - 2) ]

/-- Cursor position for the first row of a continuation page (line 309). -/
def pageTopRowY : ℚ := margin + 20 + headerRowHeight + 12

/-- Resolved item name: `item.name || item.product?.name || 'Product'`. -/
def itemNameOf (it : Item) : String := jsOrS it.name (jsOrS it.productName "Product")

/-- Effective quantity: `item.quantity || 1`. -/
def effQty (it : Item) : ℚ := if it.quantity = 0 then 1 else it.quantity

/-- Coerced unit price: `parseFloat(item.price || 0)` (line 290). -/
def itemPrice (it : Item) : JNum := jsParseFloat (jsOr it.price (.num 0))

/-- Recomputed per-line total: `price * quantity` (line 291). -/
def lineTotalOf (it : Item) : JNum := jmul (itemPrice it) (effQty it)

/-- Row height (line 314): at least 24, grown by the measured height of the
item name plus padding. -/
def rowHeightOf (env : Env) (it : Item) : ℚ :=
  max 24 (env.heightOfString (itemNameOf it) colItemWidth + 12)

/-- Rendering of a number by JavaScript `toString` for the quantity cell;
integers print without a fraction part (non-integer quantities, which no
claim exercises, are printed in rational form). -/
def qtyStr (q : ℚ) : String := if q.den = 1 then Int.repr q.num else toString q

/-- Events of one body row drawn at cursor `y` (lines 312-333): alternating
background fill on even indices, then the six cells. -/
def rowEvs (env : Env) (idx : ℕ) (it : Item) (y : ℚ) : List Ev :=
  (if idx % 2 = 0
   then [Ev.rect margin (y - 3) contentWidth (rowHeightOf env it) colorBackground false]
   else []) ++
  [ .text st10 (itemNameOf it) colItem y,
    .text st10 (jsOrS (jsOrS it.size "-") "-") colSize y,
    .text st10 (jsOrS (jsOrS it.color "-") "-") colColor y,
    .text st10 (qtyStr (effQty it)) colQty y,
    .text st10 (moneyStr (itemPrice it)) colPrice y,
    .text st10 (moneyStr (lineTotalOf it)) colTotal y ]

/-- The `order.items.forEach` loop (lines 285-336): before each row the
cursor is checked against the threshold; past it, a page break and a fresh
header row are emitted and the cursor resets to the page top.  Returns the
emitted events and the final cursor. -/
def drawRows (env : Env) : List Item → ℕ → ℚ → List Ev × ℚ
  | [], _, y => ([], y)
  | it :: rest, idx, y =>
    let brk : List Ev × ℚ :=
      if thresholdY < y then (Ev.addPage :: newPageHeaderEvs, pageTopRowY) else ([], y)
    let r := rowEvs env idx it brk.2
    let next := drawRows env rest (idx + 1) (brk.2 + rowHeightOf env it)
    (brk.1 ++ r ++ next.1, next.2)

def totalsLabelX : ℚ := colTotal - 100 - 10

/-- Totals section (lines 340-394) starting at cursor `y0`: Subtotal always,
Shipping only if positive, Tax only if positive, then the grand total at
font size 13 bold.  Returns the events and the grand-total line's cursor. -/
def totalsEvs (o : Order) (y0 : ℚ) : List Ev × ℚ :=
  let subtotal := jsParseFloat (jsOr o.subtotal (.num 0))
  let shippingCost := jsParseFloat (jsOr o.shippingCost (.num 0))
  let tax := jsParseFloat (jsOr o.tax (.num 0))
  let grandTotal := jsParseFloat (jsOr o.total (.num 0))
  let e1 : List Ev :=
    [.text st10 "Subtotal:" totalsLabelX y0, .text st10 (moneyStr subtotal) colTotal y0]
  let p2 : List Ev × ℚ :=
    if jgtZero shippingCost
    then ([.text st10 "Shipping:" totalsLabelX (y0 + 20),
           .text st10 (moneyStr shippingCost) colTotal (y0 + 20)], y0 + 40)
    else ([], y0 + 20)
  let p3 : List Ev × ℚ :=
    if jgtZero tax
    then (p2.1 ++ [.text st10 "Tax (GST):" totalsLabelX p2.2,
                   .text st10 (moneyStr tax) colTotal p2.2], p2.2 + 20)
    else p2
  let y4 := p3.2 + 8
  (e1 ++ p3.1 ++
    [.text st13b "Total:" totalsLabelX y4, .text st13b (moneyStr grandTotal) colTotal y4],
   y4)

/-- Footer section (lines 398-428) drawn at `footerY`. -/
def footerEvs (footerY : ℚ) : List Ev :=
  [ .text ⟨18, "Helvetica-Bold"⟩ "Thank You for Shopping with Arudhra Fashions!" margin footerY,
    .text st9 "This computer-generated document is valid without signature or company stamp."
      margin (footerY + 30),
    .text ⟨15, "Times-Italic"⟩ "Arudhra Fashions" (pageWidth - margin - 150) (footerY + 55) ]

/-- The renderer `generateInvoicePDF(order, user)` as a pure function of the
environment.  Effects up to the items validation are always performed; an
order with missing, non-array or empty items then rejects with the thrown
message, otherwise the table, totals and footer are drawn, the document is
finalised and the promise resolves to `/uploads/invoices/<filename>`. -/
def generateInvoicePDF (env : Env) (o : Order) (u : JUser) : RenderResult :=
  let pre := preTableEvs env o u
  match o.items with
  | .arr (it :: rest) =>
    let tbl := drawRows env (it :: rest) 0 itemsStartY
    let tot := totalsEvs o (tbl.2 + 20)
    .ok ("/uploads/invoices/" ++ invoiceFileName env o)
      (pre ++ tableHeaderEvs ++ tbl.1 ++ tot.1 ++ footerEvs (tot.2 + 50) ++ [.endDoc])
  | _ => .err "Order items are missing or invalid" pre

/-! ### Password-reset flow (src/backend/routes/authRoutes.js)

SHA-256 is treated as an abstract function `hash : String → String`; the
theorems that need collision-freeness take injectivity as a hypothesis. -/

/-- Stored user record, with the two password-reset columns. -/
structure AuthUser where
  email : String := ""
  password : String := ""
  name : String := ""
  passwordResetToken : Option String := none
  passwordResetExpires : Option ℕ := none
  deriving DecidableEq

/-- Update the first element satisfying `p` (the `findOne` + `save` pattern);
`none` when no element matches. -/
def updateFirst (p : α → Bool) (f : α → α) : List α → Option (List α)
  | [] => none
  | x :: xs => if p x then some (f x :: xs) else (updateFirst p f xs).map (x :: ·)

inductive ForgotOutcome where
  | notFound
  | sent
  deriving DecidableEq

/-- `POST /api/auth/forgot-password`, lines 138-171 (after the email format
validation of lines 127-136, which is not modelled): look the user up by
email; if found, store the SHA-256 hash of a fresh token together with an
expiry one hour (60*60*1000 ms) ahead. -/
def forgotPassword (hash : String → String) (db : List AuthUser) (email resetToken : String)
    (nowMs : ℕ) : ForgotOutcome × List AuthUser :=
  match updateFirst (fun u => u.email == email)
      (fun u => { u with passwordResetToken := some (hash resetToken),
                         passwordResetExpires := some (nowMs + 60 * 60 * 1000) }) db with
  | none => (.notFound, db)
  | some db2 => (.sent, db2)

inductive ResetOutcome where
  | badRequest (msg : String)
  | invalidToken
  | success
  deriving DecidableEq

/-- The `findOne` condition of lines 194-201: stored hash equals the hash of
the presented token, and the stored expiry is strictly later than now. -/
def resetMatches (hash : String → String) (token : String) (nowMs : ℕ) (u : AuthUser) : Bool :=
  u.passwordResetToken == some (hash token) &&
    (match u.passwordResetExpires with
     | some e => nowMs < e
     | none => false)

/-- `POST /api/auth/reset-password`, lines 181-217: reject a missing token or
password (JavaScript falsiness: the empty string) and a password shorter than
8; otherwise find a user whose stored reset-token hash and expiry match, set
the new password and clear both reset columns. -/
def resetPassword (hash : String → String) (db : List AuthUser) (token newPassword : String)
    (nowMs : ℕ) : ResetOutcome × List AuthUser :=
  if token = "" ∨ newPassword = "" then (.badRequest "Token and new password are required", db)
  else if newPassword.length < 8 then (.badRequest "Password must be at least 8 characters", db)
  else
    match updateFirst (resetMatches hash token nowMs)
        (fun u => { u with password := newPassword,
                           passwordResetToken := none,
                           passwordResetExpires := none }) db with
    | none => (.invalidToken, db)
    | some db2 => (.success, db2)

/-! ### C1: column geometry invariant -/

/-- C1: for the fixed line-item table configuration (margin 40, first column
at margin + 10, widths 180/42/52/32/70/80, inter-column gap 8, page width
595.28), every column x-offset is the accumulated sum of all prior column
widths and gaps, and the last column fits: colTotal + colTotalWidth = 546 ≤
pageWidth - margin = 555.28.  This holds at construction of the layout
constants, independent of any per-call input. -/
theorem colGeometry_ok :
    margin = 40 ∧ pageWidth = 595.28 ∧
    colItemWidth = 180 ∧ colSizeWidth = 42 ∧ colColorWidth = 52 ∧
    colQtyWidth = 32 ∧ colPriceWidth = 70 ∧ colTotalWidth = 80 ∧
    colItem = margin + 10 ∧
    colSize = margin + 10 + colItemWidth + 8 ∧
    colColor = margin + 10 + colItemWidth + 8 + colSizeWidth + 8 ∧
    colQty = margin + 10 + colItemWidth + 8 + colSizeWidth + 8 + colColorWidth + 8 ∧
    colPrice = margin + 10 + colItemWidth + 8 + colSizeWidth + 8 + colColorWidth + 8
      + colQtyWidth + 8 ∧
    colTotal = margin + 10 + colItemWidth + 8 + colSizeWidth + 8 + colColorWidth + 8
      + colQtyWidth + 8 + colPriceWidth + 8 ∧
    colTotal + colTotalWidth = 546 ∧
    colTotal + colTotalWidth ≤ pageWidth - margin ∧
    pageWidth - margin = 555.28 := by
  simp only [colItem, colSize, colColor, colQty, colPrice, colTotal, colItemWidth,
    colSizeWidth, colColorWidth, colQtyWidth, colPriceWidth, colTotalWidth, margin, pageWidth]
  norm_num

/-! ### Concrete fixtures shared by the evaluation theorems -/

/-- Concrete environment: the invoices directory does not exist yet, no logo
asset is present, the host parses no date string and formats every valid
date as a fixed day. -/
def env0 : Env :=
  { dirExists := false, fileExists := fun _ => false, nowMs := 1700000000000,
    parseDate := fun _ => none, fmtDate := fun _ => "11 October 2026",
    heightOfString := fun _ _ => 0 }

def u0 : JUser := {}

def it0 : Item := { name := "Saree", quantity := 2, price := .num 450 }

def o0 : Order :=
  { orderId := "A1", items := .arr [it0], subtotal := .num 900, total := .num 900 }

/-! ### Shared rendering lemmas -/

theorem thr_lt_start_false : ¬ thresholdY < itemsStartY := by
  norm_num [thresholdY, itemsStartY, tableStartY, billToBoxY, invoiceInfoY, invoiceTitleY,
    headerRowHeight, billToBoxHeight, pageHeight, margin]

theorem generate_trace_eq (env : Env) (o : Order) (u : JUser) (it : Item) (rest : List Item)
    (h : o.items = .arr (it :: rest)) :
    (generateInvoicePDF env o u).trace =
      preTableEvs env o u ++ tableHeaderEvs ++ (drawRows env (it :: rest) 0 itemsStartY).1 ++
      (totalsEvs o ((drawRows env (it :: rest) 0 itemsStartY).2 + 20)).1 ++
      footerEvs ((totalsEvs o ((drawRows env (it :: rest) 0 itemsStartY).2 + 20)).2 + 50) ++
      [Ev.endDoc] := by
  simp [generateInvoicePDF, h, RenderResult.trace, List.append_assoc]

theorem generate_isOk (env : Env) (o : Order) (u : JUser) (it : Item) (rest : List Item)
    (h : o.items = .arr (it :: rest)) : (generateInvoicePDF env o u).isOk = true := by
  simp [generateInvoicePDF, h, RenderResult.isOk]

theorem generate_ref_eq (env : Env) (o : Order) (u : JUser) (it : Item) (rest : List Item)
    (h : o.items = .arr (it :: rest)) :
    (generateInvoicePDF env o u).ref = some ("/uploads/invoices/" ++ invoiceFileName env o) := by
  simp [generateInvoicePDF, h, RenderResult.ref]

theorem generate_err_eq (env : Env) (o : Order) (u : JUser)
    (h : o.items = .missing ∨ o.items = .notArray ∨ o.items = .arr []) :
    generateInvoicePDF env o u =
      .err "Order items are missing or invalid" (preTableEvs env o u) := by
  rcases h with h | h | h <;> simp [generateInvoicePDF, h]

theorem moneyStr_data (v : JNum) :
    (moneyStr v).data = 'R' :: 's' :: '.' :: ' ' :: (jToFixed2 v).data := by
  simp [moneyStr, String.data_append]

theorem moneyStr_head (v : JNum) : (moneyStr v).data.head? = some 'R' := by
  rw [moneyStr_data]; rfl

theorem moneyStr_ne (v : JNum) (t : String) (h : t.data.head? ≠ some 'R') :
    moneyStr v ≠ t :=
  fun he => h (he ▸ moneyStr_head v)

theorem ne_moneyStr (v : JNum) (t : String) (h : t.data.head? ≠ some 'R') :
    t ≠ moneyStr v :=
  fun he => moneyStr_ne v t h he.symm

/-- Last two events of the totals block: the grand-total label and value,
rendered from the stored `order.total` field. -/
theorem totals_last_two (o : Order) (y0 : ℚ) :
    ∃ front y, (totalsEvs o y0).1 = front ++
      [Ev.text st13b "Total:" totalsLabelX y,
       Ev.text st13b (moneyStr (jsParseFloat (jsOr o.total (.num 0)))) colTotal y] := by
  cases hs : jgtZero (jsParseFloat (jsOr o.shippingCost (.num 0))) <;>
    cases ht : jgtZero (jsParseFloat (jsOr o.tax (.num 0)))
  · exact ⟨[Ev.text st10 "Subtotal:" totalsLabelX y0,
      Ev.text st10 (moneyStr (jsParseFloat (jsOr o.subtotal (.num 0)))) colTotal y0],
      y0 + 20 + 8, by simp [totalsEvs, hs, ht]⟩
  · exact ⟨[Ev.text st10 "Subtotal:" totalsLabelX y0,
      Ev.text st10 (moneyStr (jsParseFloat (jsOr o.subtotal (.num 0)))) colTotal y0,
      Ev.text st10 "Tax (GST):" totalsLabelX (y0 + 20),
      Ev.text st10 (moneyStr (jsParseFloat (jsOr o.tax (.num 0)))) colTotal (y0 + 20)],
      y0 + 20 + 20 + 8, by simp [totalsEvs, hs, ht]⟩
  · exact ⟨[Ev.text st10 "Subtotal:" totalsLabelX y0,
      Ev.text st10 (moneyStr (jsParseFloat (jsOr o.subtotal (.num 0)))) colTotal y0,
      Ev.text st10 "Shipping:" totalsLabelX (y0 + 20),
      Ev.text st10 (moneyStr (jsParseFloat (jsOr o.shippingCost (.num 0)))) colTotal (y0 + 20)],
      y0 + 40 + 8, by simp [totalsEvs, hs, ht]⟩
  · exact ⟨[Ev.text st10 "Subtotal:" totalsLabelX y0,
      Ev.text st10 (moneyStr (jsParseFloat (jsOr o.subtotal (.num 0)))) colTotal y0,
      Ev.text st10 "Shipping:" totalsLabelX (y0 + 20),
      Ev.text st10 (moneyStr (jsParseFloat (jsOr o.shippingCost (.num 0)))) colTotal (y0 + 20),
      Ev.text st10 "Tax (GST):" totalsLabelX (y0 + 40),
      Ev.text st10 (moneyStr (jsParseFloat (jsOr o.tax (.num 0)))) colTotal (y0 + 40)],
      y0 + 40 + 20 + 8, by simp [totalsEvs, hs, ht]⟩

theorem eq_moneyStr_shipping (v : JNum) : ("Shipping:" = moneyStr v) ↔ False :=
  iff_false_intro (ne_moneyStr v "Shipping:" (by decide))

theorem eq_moneyStr_tax (v : JNum) : ("Tax (GST):" = moneyStr v) ↔ False :=
  iff_false_intro (ne_moneyStr v "Tax (GST):" (by decide))

/-! ### C5: totals block lines -/

/-- C5: for every rendered order the totals block always contains the
Subtotal line; it contains the Shipping line iff the coerced shippingCost is
positive and the Tax line iff the coerced tax is positive; it always ends
with a Total line at the larger bold style (13pt Helvetica-Bold versus 10pt);
when shipping and tax are both non-positive only Subtotal and Total appear;
and the totals block occurs inside every successful render's trace. -/
theorem totals_block_lines : ∀ (o : Order) (y0 : ℚ),
    (Ev.text st10 "Subtotal:" totalsLabelX y0 ∈ (totalsEvs o y0).1) ∧
    ((∃ y, Ev.text st10 "Shipping:" totalsLabelX y ∈ (totalsEvs o y0).1) ↔
      jgtZero (jsParseFloat (jsOr o.shippingCost (.num 0))) = true) ∧
    ((∃ y, Ev.text st10 "Tax (GST):" totalsLabelX y ∈ (totalsEvs o y0).1) ↔
      jgtZero (jsParseFloat (jsOr o.tax (.num 0))) = true) ∧
    (∃ front y, (totalsEvs o y0).1 = front ++
      [Ev.text st13b "Total:" totalsLabelX y,
       Ev.text st13b (moneyStr (jsParseFloat (jsOr o.total (.num 0)))) colTotal y]) ∧
    (st10.size < st13b.size ∧ st13b.font = "Helvetica-Bold") ∧
    (jgtZero (jsParseFloat (jsOr o.shippingCost (.num 0))) = false →
      jgtZero (jsParseFloat (jsOr o.tax (.num 0))) = false →
      (totalsEvs o y0).1 =
        [Ev.text st10 "Subtotal:" totalsLabelX y0,
         Ev.text st10 (moneyStr (jsParseFloat (jsOr o.subtotal (.num 0)))) colTotal y0,
         Ev.text st13b "Total:" totalsLabelX (y0 + 20 + 8),
         Ev.text st13b (moneyStr (jsParseFloat (jsOr o.total (.num 0)))) colTotal (y0 + 20 + 8)]) ∧
    (∀ (env : Env) (u : JUser) (it : Item) (rest : List Item), o.items = .arr (it :: rest) →
      ∃ front back, (generateInvoicePDF env o u).trace =
        front ++ (totalsEvs o ((drawRows env (it :: rest) 0 itemsStartY).2 + 20)).1 ++ back) := by
  intro o y0
  refine ⟨?_, ?_, ?_, totals_last_two o y0, ⟨by norm_num [st10, st13b], rfl⟩, ?_, ?_⟩
  · cases hs : jgtZero (jsParseFloat (jsOr o.shippingCost (.num 0))) <;>
      cases ht : jgtZero (jsParseFloat (jsOr o.tax (.num 0))) <;> simp [totalsEvs, hs, ht]
  · constructor
    · rintro ⟨y, hy⟩
      by_contra hns
      rw [Bool.not_eq_true] at hns
      cases ht : jgtZero (jsParseFloat (jsOr o.tax (.num 0))) <;>
        simp [totalsEvs, hns, ht, eq_moneyStr_shipping] at hy
    · intro hs
      cases ht : jgtZero (jsParseFloat (jsOr o.tax (.num 0))) <;>
        exact ⟨y0 + 20, by simp [totalsEvs, hs, ht]⟩
  · constructor
    · rintro ⟨y, hy⟩
      by_contra hnt
      rw [Bool.not_eq_true] at hnt
      cases hs : jgtZero (jsParseFloat (jsOr o.shippingCost (.num 0))) <;>
        simp [totalsEvs, hs, hnt, eq_moneyStr_tax] at hy
    · intro ht
      cases hs : jgtZero (jsParseFloat (jsOr o.shippingCost (.num 0)))
      · exact ⟨y0 + 20, by simp [totalsEvs, hs, ht]⟩
      · exact ⟨y0 + 40, by simp [totalsEvs, hs, ht]⟩
  · intro h1 h2
    simp [totalsEvs, h1, h2]
  · intro env u it rest h
    refine ⟨preTableEvs env o u ++ tableHeaderEvs ++ (drawRows env (it :: rest) 0 itemsStartY).1,
      footerEvs ((totalsEvs o ((drawRows env (it :: rest) 0 itemsStartY).2 + 20)).2 + 50) ++
        [Ev.endDoc], ?_⟩
    rw [generate_trace_eq env o u it rest h]
    simp [List.append_assoc]

/-- Closed instance of the C5 theorem at a concrete order with zero shipping
and tax: the totals block is exactly Subtotal followed by Total. -/
theorem totals_block_lines_witness :
    (totalsEvs o0 100).1 =
      [Ev.text st10 "Subtotal:" totalsLabelX 100,
       Ev.text st10 (moneyStr (jsParseFloat (jsOr o0.subtotal (.num 0)))) colTotal 100,
       Ev.text st13b "Total:" totalsLabelX (100 + 20 + 8),
       Ev.text st13b (moneyStr (jsParseFloat (jsOr o0.total (.num 0)))) colTotal (100 + 20 + 8)] :=
  (totals_block_lines o0 100).2.2.2.2.2.1
    (by norm_num [o0, jsOr, jsTruthy, jsParseFloat, jgtZero])
    (by norm_num [o0, jsOr, jsTruthy, jsParseFloat, jgtZero])

/-! ### C9: grand total comes from the stored order.total field -/

/-- C9: the printed grand Total is `moneyStr` of the coerced `order.total`
field for every order, never a recomputation; at the concrete disagreeing
numbers (subtotal 10, shipping 5, tax 5, total 999) the rendered string is
"Rs. 999.00", not the recomputed "Rs. 20.00". -/
theorem grandTotal_from_stored_total :
    (∀ (o : Order) (y0 : ℚ), ∃ front y, (totalsEvs o y0).1 = front ++
      [Ev.text st13b "Total:" totalsLabelX y,
       Ev.text st13b (moneyStr (jsParseFloat (jsOr o.total (.num 0)))) colTotal y]) ∧
    moneyStr (jsParseFloat (jsOr (JSVal.num 999) (JSVal.num 0))) = "Rs. 999.00" ∧
    moneyStr (JNum.num ((10 : ℚ) + 5 + 5)) = "Rs. 20.00" ∧
    "Rs. 999.00" ≠ "Rs. 20.00" := by
  refine ⟨fun o y0 => totals_last_two o y0, ?_, ?_, by decide⟩
  · norm_num [moneyStr, jToFixed2, fixed2, twoDigitStr, jsOr, jsTruthy, jsParseFloat]
    decide
  · norm_num [moneyStr, jToFixed2, fixed2, twoDigitStr]
    decide

/-! ### C2: the items validation happens after I-O and header drawing -/

/-- Events that can legally occur before the items check: anything except a
page break, document finalisation, or a table-header fill. -/
def preTableOk : Ev → Bool
  | .addPage => false
  | .endDoc => false
  | .rect _ _ _ _ c _ => !(c == headerFill)
  | _ => true

theorem header_all_ok (env : Env) (o : Order) :
    ∀ e ∈ headerEvs env o, preTableOk e = true := by
  intro e he
  cases hl : logoPathFound env <;> simp [headerEvs, hl] at he <;>
    rcases he with rfl | rfl | rfl | rfl | rfl | rfl <;> rfl

/-- Every event of a `Ev.text` shape. -/
def isTextEv : Ev → Bool
  | .text _ _ _ _ => true
  | _ => false

theorem preTableOk_of_text (e : Ev) (h : isTextEv e = true) : preTableOk e = true := by
  cases e <;> simp_all [isTextEv, preTableOk]

theorem billingAddr_texts (o : Order) :
    ∀ e ∈ (billingAddrEvs o).1, isTextEv e = true := by
  intro e he
  cases hsa : o.shippingAddress with
  | none => simp [billingAddrEvs, hsa] at he
  | some ad =>
    simp only [billingAddrEvs, hsa] at he
    split_ifs at he <;>
      simp only [List.mem_append, List.mem_cons, List.not_mem_nil, or_false, false_or] at he <;>
      first
        | exact he.elim
        | (rcases he with rfl | rfl <;> rfl)

theorem billingMobile_texts (o : Order) (u : JUser) :
    ∀ e ∈ (billingMobileEvs o u).1, isTextEv e = true := by
  intro e he
  simp only [billingMobileEvs] at he
  split_ifs at he
  · rcases List.mem_append.1 he with h1 | h2
    · exact billingAddr_texts o e h1
    · simp at h2; subst h2; rfl
  · exact billingAddr_texts o e he

theorem billingEmail_texts (o : Order) (u : JUser) :
    ∀ e ∈ billingEmailEvs o u, isTextEv e = true := by
  intro e he
  simp only [billingEmailEvs] at he
  split_ifs at he
  · rcases List.mem_append.1 he with h1 | h2
    · exact billingMobile_texts o u e h1
    · simp at h2; subst h2; rfl
  · exact billingMobile_texts o u e he

theorem billing_all_ok (o : Order) (u : JUser) :
    ∀ e ∈ billingEvs o u, preTableOk e = true := by
  intro e he
  simp only [billingEvs, List.cons_append, List.nil_append, List.mem_cons] at he
  rcases he with rfl | rfl | rfl | rfl | htail
  · decide
  · decide
  · rfl
  · rfl
  · exact preTableOk_of_text e (billingEmail_texts o u e htail)

theorem preTable_all_ok (env : Env) (o : Order) (u : JUser) :
    ∀ e ∈ preTableEvs env o u, preTableOk e = true := by
  intro e he
  simp only [preTableEvs] at he
  rcases List.mem_append.1 he with h1 | hbill
  · rcases List.mem_append.1 h1 with h2 | hhdr
    · rcases List.mem_append.1 h2 with hdir | hopen
      · cases hd : env.dirExists <;> rw [hd] at hdir <;> simp at hdir
        subst hdir; rfl
      · simp at hopen; subst hopen; rfl
    · exact header_all_ok env o e hhdr
  · exact billing_all_ok o u e hbill

/-- C2 (counterexample): at a concrete input with missing items and a
missing invoices directory, the render does fail with the items error, but
the directory has already been created, the output stream already opened,
and the header title already drawn before the check — refuting the claim
that rejection happens before any drawing or I-O. -/
theorem items_check_not_first_counterexample :
    generateInvoicePDF env0 { o0 with items := ItemsField.missing } u0 =
      .err "Order items are missing or invalid"
        (preTableEvs env0 { o0 with items := ItemsField.missing } u0) ∧
    Ev.mkdir invoicesDir ∈ preTableEvs env0 { o0 with items := ItemsField.missing } u0 ∧
    Ev.openStream (invoicesDir ++ "/" ++ invoiceFileName env0 { o0 with items := ItemsField.missing })
      "w" ∈ preTableEvs env0 { o0 with items := ItemsField.missing } u0 ∧
    Ev.text st36b "INVOICE" margin invoiceTitleY
      ∈ preTableEvs env0 { o0 with items := ItemsField.missing } u0 := by
  refine ⟨rfl, ?_, ?_, ?_⟩ <;>
    simp [preTableEvs, headerEvs, billingEvs, env0, o0, logoPathFound, logoPaths]

/-- C2 (amended): for every input whose items are missing, not an array, or
empty, the render rejects with the items error; the rejection happens after
the directory check, the opening of the output stream and the header/billing
drawing (all recorded in the error trace), but before any table drawing — no
page break, no document finalisation and no table-header fill occur. -/
theorem items_check_rejects : ∀ (env : Env) (o : Order) (u : JUser),
    (o.items = .missing ∨ o.items = .notArray ∨ o.items = .arr []) →
    generateInvoicePDF env o u =
      .err "Order items are missing or invalid" (preTableEvs env o u) ∧
    Ev.openStream (invoicesDir ++ "/" ++ invoiceFileName env o) "w" ∈ preTableEvs env o u ∧
    Ev.addPage ∉ preTableEvs env o u ∧
    Ev.endDoc ∉ preTableEvs env o u ∧
    (∀ x y w h s, Ev.rect x y w h headerFill s ∉ preTableEvs env o u) := by
  intro env o u h
  refine ⟨generate_err_eq env o u h, by simp [preTableEvs], ?_, ?_, ?_⟩
  · intro hmem
    have hok := preTable_all_ok env o u _ hmem
    simp [preTableOk] at hok
  · intro hmem
    have hok := preTable_all_ok env o u _ hmem
    simp [preTableOk] at hok
  · intro x y w hh s hmem
    have hok := preTable_all_ok env o u _ hmem
    simp [preTableOk] at hok

/-- Closed instance of the amended C2 theorem at a concrete bad input. -/
theorem items_check_rejects_witness :
    generateInvoicePDF env0 { o0 with items := ItemsField.missing } u0 =
      .err "Order items are missing or invalid"
        (preTableEvs env0 { o0 with items := ItemsField.missing } u0) ∧
    Ev.addPage ∉ preTableEvs env0 { o0 with items := ItemsField.missing } u0 :=
  ⟨(items_check_rejects env0 { o0 with items := ItemsField.missing } u0 (Or.inl rfl)).1,
   (items_check_rejects env0 { o0 with items := ItemsField.missing } u0 (Or.inl rfl)).2.2.1⟩

/-! ### C4: pagination -/

/-- A trace paginates correctly when every page break is immediately
followed by the redrawn table-header row. -/
def pagesHeaded (tr : List Ev) : Prop :=
  ∀ p r, tr = p ++ Ev.addPage :: r → ∃ t, r = newPageHeaderEvs ++ t

theorem pagesHeaded_of_not_mem (xs : List Ev) (h : Ev.addPage ∉ xs) : pagesHeaded xs := by
  intro p r he
  exact absurd (by rw [he]; simp : Ev.addPage ∈ xs) h

theorem pagesHeaded_append (xs ys : List Ev) (hx : pagesHeaded xs) (hy : pagesHeaded ys) :
    pagesHeaded (xs ++ ys) := by
  intro p r he
  rcases List.append_eq_append_iff.1 he with ⟨a2, hp, hys⟩ | ⟨c2, hxs, hd⟩
  · exact hy a2 r hys
  · cases c2 with
    | nil =>
      simp only [List.nil_append] at hd
      exact hy [] r (by simpa using hd.symm)
    | cons c ct =>
      simp only [List.cons_append, List.cons.injEq] at hd
      rcases hd with ⟨hc, hr⟩
      rcases hx p ct (by rw [hxs, ← hc]) with ⟨t, ht⟩
      exact ⟨t ++ ys, by rw [hr, ht, List.append_assoc]⟩

theorem pagesHeaded_break : pagesHeaded (Ev.addPage :: newPageHeaderEvs) := by
  intro p r he
  cases p with
  | nil =>
    simp only [List.nil_append, List.cons.injEq] at he
    exact ⟨[], by simp [← he.2]⟩
  | cons c ct =>
    simp only [List.cons_append, List.cons.injEq] at he
    exact absurd (by rw [he.2]; simp : Ev.addPage ∈ newPageHeaderEvs) (by decide)

theorem addPage_not_mem_rowEvs (env : Env) (idx : ℕ) (it : Item) (y : ℚ) :
    Ev.addPage ∉ rowEvs env idx it y := by
  by_cases hb : idx % 2 = 0 <;> simp [rowEvs, hb]

theorem drawRows_cons_break (env : Env) (it : Item) (rest : List Item) (idx : ℕ) (y : ℚ)
    (h : thresholdY < y) :
    (drawRows env (it :: rest) idx y).1 =
      (Ev.addPage :: newPageHeaderEvs) ++ rowEvs env idx it pageTopRowY ++
        (drawRows env rest (idx + 1) (pageTopRowY + rowHeightOf env it)).1 := by
  simp only [drawRows, if_pos h]

theorem drawRows_cons_nobreak (env : Env) (it : Item) (rest : List Item) (idx : ℕ) (y : ℚ)
    (h : ¬ thresholdY < y) :
    (drawRows env (it :: rest) idx y).1 =
      rowEvs env idx it y ++ (drawRows env rest (idx + 1) (y + rowHeightOf env it)).1 := by
  simp only [drawRows, if_neg h, List.nil_append]

theorem drawRows_pagesHeaded (env : Env) :
    ∀ (l : List Item) (idx : ℕ) (y : ℚ), pagesHeaded (drawRows env l idx y).1 := by
  intro l
  induction l with
  | nil => intro idx y; exact pagesHeaded_of_not_mem _ (by simp [drawRows])
  | cons it rest ih =>
    intro idx y
    by_cases h : thresholdY < y
    · rw [drawRows_cons_break env it rest idx y h]
      exact pagesHeaded_append _ _
        (pagesHeaded_append _ _ pagesHeaded_break
          (pagesHeaded_of_not_mem _ (addPage_not_mem_rowEvs env idx it pageTopRowY)))
        (ih (idx + 1) (pageTopRowY + rowHeightOf env it))
    · rw [drawRows_cons_nobreak env it rest idx y h]
      exact pagesHeaded_append _ _
        (pagesHeaded_of_not_mem _ (addPage_not_mem_rowEvs env idx it y))
        (ih (idx + 1) (y + rowHeightOf env it))

theorem addPage_not_mem_totals (o : Order) (y0 : ℚ) :
    Ev.addPage ∉ (totalsEvs o y0).1 := by
  cases hs : jgtZero (jsParseFloat (jsOr o.shippingCost (.num 0))) <;>
    cases ht : jgtZero (jsParseFloat (jsOr o.tax (.num 0))) <;>
      simp [totalsEvs, hs, ht]

theorem addPage_not_mem_preTable (env : Env) (o : Order) (u : JUser) :
    Ev.addPage ∉ preTableEvs env o u := by
  intro hmem
  have hok := preTable_all_ok env o u _ hmem
  simp [preTableOk] at hok

theorem generate_pagesHeaded (env : Env) (o : Order) (u : JUser) (it : Item)
    (rest : List Item) (h : o.items = .arr (it :: rest)) :
    pagesHeaded (generateInvoicePDF env o u).trace := by
  rw [generate_trace_eq env o u it rest h]
  refine pagesHeaded_append _ _ (pagesHeaded_append _ _ (pagesHeaded_append _ _
    (pagesHeaded_append _ _ (pagesHeaded_append _ _ ?_ ?_) ?_) ?_) ?_) ?_
  · exact pagesHeaded_of_not_mem _ (addPage_not_mem_preTable env o u)
  · exact pagesHeaded_of_not_mem _ (by decide)
  · exact drawRows_pagesHeaded env _ 0 itemsStartY
  · exact pagesHeaded_of_not_mem _ (addPage_not_mem_totals o _)
  · exact pagesHeaded_of_not_mem _ (by simp [footerEvs])
  · exact pagesHeaded_of_not_mem _ (by simp)

theorem drawRows_count_addPage (env : Env) :
    ∀ (l : List Item) (idx : ℕ) (y : ℚ),
      thresholdY < y + 24 * ((l.length - 1 : ℕ) : ℚ) → l ≠ [] →
      1 ≤ (drawRows env l idx y).1.count Ev.addPage := by
  intro l
  induction l with
  | nil => intro idx y h hne; exact absurd rfl hne
  | cons it rest ih =>
    intro idx y h hne
    by_cases hbr : thresholdY < y
    · rw [drawRows_cons_break env it rest idx y hbr]
      simp [List.count_append, List.count_cons]
    · cases rest with
      | nil =>
        exfalso
        simp only [List.length_cons, List.length_nil, Nat.zero_add, Nat.sub_self,
          Nat.cast_zero, mul_zero, add_zero] at h
        exact hbr h
      | cons it2 rest2 =>
        have h24 : (24 : ℚ) ≤ rowHeightOf env it := le_max_left _ _
        have h2 : thresholdY <
            (y + rowHeightOf env it) + 24 * (((it2 :: rest2).length - 1 : ℕ) : ℚ) := by
          have hl1 : ((it :: it2 :: rest2).length - 1 : ℕ) = rest2.length + 1 := by simp
          have hl2 : (((it2 :: rest2)).length - 1 : ℕ) = rest2.length := by simp
          rw [hl1] at h
          rw [hl2]
          push_cast at h ⊢
          linarith
        have hrec := ih (idx + 1) (y + rowHeightOf env it) h2 (by simp)
        rw [drawRows_cons_nobreak env it (it2 :: rest2) idx y hbr]
        simp only [List.count_append]
        omega

/-- C4: for a non-empty item list the render succeeds; every page break in
the trace is immediately followed by the redrawn six-column header row
(`pagesHeaded`); a row never contains a page break, so no line item is split
across pages; before each row the cursor is checked against the threshold
`pageHeight - 250`, and past it the page break plus the header row precede
the row, which is then drawn at the top of the new page; and an order with
40 line items produces at least one page break, so the output spans at least
2 pages. -/
theorem pagination_ok :
    ∀ (env : Env) (o : Order) (u : JUser) (it : Item) (rest : List Item),
      o.items = .arr (it :: rest) →
      (generateInvoicePDF env o u).isOk = true ∧
      pagesHeaded (generateInvoicePDF env o u).trace ∧
      (∀ (idx : ℕ) (it2 : Item) (y : ℚ), Ev.addPage ∉ rowEvs env idx it2 y) ∧
      (∀ (idx : ℕ) (y : ℚ) (it2 : Item) (rest2 : List Item), thresholdY < y →
        (drawRows env (it2 :: rest2) idx y).1 =
          (Ev.addPage :: newPageHeaderEvs) ++ rowEvs env idx it2 pageTopRowY ++
            (drawRows env rest2 (idx + 1) (pageTopRowY + rowHeightOf env it2)).1) ∧
      (∀ (idx : ℕ) (y : ℚ) (it2 : Item) (rest2 : List Item), ¬ thresholdY < y →
        (drawRows env (it2 :: rest2) idx y).1 =
          rowEvs env idx it2 y ++ (drawRows env rest2 (idx + 1) (y + rowHeightOf env it2)).1) ∧
      ((it :: rest).length = 40 →
        2 ≤ 1 + ((generateInvoicePDF env o u).trace.count Ev.addPage)) := by
  intro env o u it rest h
  refine ⟨generate_isOk env o u it rest h, generate_pagesHeaded env o u it rest h,
    fun idx it2 y => addPage_not_mem_rowEvs env idx it2 y,
    fun idx y it2 rest2 hy => drawRows_cons_break env it2 rest2 idx y hy,
    fun idx y it2 rest2 hy => drawRows_cons_nobreak env it2 rest2 idx y hy, ?_⟩
  intro h40
  have hthr : thresholdY < itemsStartY + 24 * (((it :: rest).length - 1 : ℕ) : ℚ) := by
    rw [h40]
    norm_num [thresholdY, itemsStartY, tableStartY, billToBoxY, invoiceInfoY, invoiceTitleY,
      headerRowHeight, billToBoxHeight, pageHeight, margin]
  have hcount := drawRows_count_addPage env (it :: rest) 0 itemsStartY hthr (by simp)
  rw [generate_trace_eq env o u it rest h]
  simp only [List.count_append]
  omega

def o40 : Order :=
  { orderId := "A1", items := .arr (List.replicate 40 it0), subtotal := .num 900,
    total := .num 900 }

/-- Closed instance of the C4 theorem: a concrete order with 40 items
renders successfully and produces at least one page break. -/
theorem pagination_ok_witness :
    (generateInvoicePDF env0 o40 u0).isOk = true ∧
    2 ≤ 1 + ((generateInvoicePDF env0 o40 u0).trace.count Ev.addPage) :=
  ⟨(pagination_ok env0 o40 u0 it0 (List.replicate 39 it0) rfl).1,
   (pagination_ok env0 o40 u0 it0 (List.replicate 39 it0) rfl).2.2.2.2.2 (by simp)⟩

/-! ### C6: the per-row total is recomputed, never read from the item -/

theorem rowEvs_lineTotal (env : Env) (idx : ℕ) (it : Item) (y : ℚ) (v : JSVal) :
    rowEvs env idx { it with lineTotal := v } y = rowEvs env idx it y := rfl

theorem rowHeightOf_lineTotal (env : Env) (it : Item) (v : JSVal) :
    rowHeightOf env { it with lineTotal := v } = rowHeightOf env it := rfl

theorem drawRows_total_mem (env : Env) :
    ∀ (l : List Item) (idx : ℕ) (y : ℚ) (pre : List Item) (it : Item) (post : List Item),
      l = pre ++ it :: post →
      ∃ yr, Ev.text st10 (moneyStr (lineTotalOf it)) colTotal yr ∈ (drawRows env l idx y).1 := by
  intro l
  induction l with
  | nil =>
    intro idx y pre it post hsplit
    cases pre <;> simp at hsplit
  | cons a rest ih =>
    intro idx y pre it post hsplit
    cases pre with
    | nil =>
      simp only [List.nil_append, List.cons.injEq] at hsplit
      rcases hsplit with ⟨rfl, rfl⟩
      by_cases hbr : thresholdY < y
      · exact ⟨pageTopRowY, by
          rw [drawRows_cons_break env a rest idx y hbr]; simp [rowEvs]⟩
      · exact ⟨y, by
          rw [drawRows_cons_nobreak env a rest idx y hbr]; simp [rowEvs]⟩
    | cons b pre2 =>
      simp only [List.cons_append, List.cons.injEq] at hsplit
      rcases hsplit with ⟨rfl, hrest⟩
      by_cases hbr : thresholdY < y
      · rcases ih (idx + 1) (pageTopRowY + rowHeightOf env a) pre2 it post hrest with ⟨yr, hyr⟩
        exact ⟨yr, by rw [drawRows_cons_break env a rest idx y hbr]; simp [hyr]⟩
      · rcases ih (idx + 1) (y + rowHeightOf env a) pre2 it post hrest with ⟨yr, hyr⟩
        exact ⟨yr, by rw [drawRows_cons_nobreak env a rest idx y hbr]; simp [hyr]⟩

/-- C6: for every item of every row batch, the Total cell text is
`moneyStr` of `parseFloat(item.price || 0) * (item.quantity || 1)`,
recomputed at render time; the rows drawn are identical whatever value any
stored `lineTotal` field of the items carries (the field is never read);
and the recomputed total cell appears in the full render trace. -/
theorem line_total_recomputed :
    ∀ (env : Env) (l : List Item) (idx : ℕ) (y : ℚ),
      (∀ (pre : List Item) (it : Item) (post : List Item), l = pre ++ it :: post →
        ∃ yr, Ev.text st10
          (moneyStr (jmul (jsParseFloat (jsOr it.price (JSVal.num 0))) (effQty it)))
          colTotal yr ∈ (drawRows env l idx y).1) ∧
      (∀ v : JSVal,
        drawRows env (l.map (fun it => { it with lineTotal := v })) idx y =
          drawRows env l idx y) ∧
      (∀ (o : Order) (u : JUser), o.items = .arr l →
        ∀ (pre : List Item) (it : Item) (post : List Item), l = pre ++ it :: post →
        ∃ yr, Ev.text st10
          (moneyStr (jmul (jsParseFloat (jsOr it.price (JSVal.num 0))) (effQty it)))
          colTotal yr ∈ (generateInvoicePDF env o u).trace) := by
  intro env l idx y
  refine ⟨fun pre it post hsplit => drawRows_total_mem env l idx y pre it post hsplit, ?_, ?_⟩
  · intro v
    induction l generalizing idx y with
    | nil => simp [drawRows]
    | cons a rest ih =>
      simp only [List.map_cons, drawRows, rowEvs_lineTotal, rowHeightOf_lineTotal, ih]
  · intro o u hitems pre it post hsplit
    cases l with
    | nil => cases pre <;> simp at hsplit
    | cons hd tl =>
      rcases drawRows_total_mem env (hd :: tl) 0 itemsStartY pre it post hsplit with ⟨yr, hyr⟩
      refine ⟨yr, ?_⟩
      rw [generate_trace_eq env o u hd tl hitems]
      simp only [List.append_assoc, List.mem_append]
      exact Or.inr (Or.inr (Or.inl hyr))

/-- Closed instance of the C6 theorem at a concrete one-item order. -/
theorem line_total_recomputed_witness :
    ∃ yr, Ev.text st10
      (moneyStr (jmul (jsParseFloat (jsOr it0.price (JSVal.num 0))) (effQty it0)))
      colTotal yr ∈ (drawRows env0 [it0] 0 itemsStartY).1 :=
  (line_total_recomputed env0 [it0] 0 itemsStartY).1 [] it0 [] rfl

/-! ### C3: an unparseable createdAt renders the string "Invalid Date" -/

/-- Order whose createdAt is an unparseable date string. -/
def oBD : Order := { o0 with createdAt := JSVal.str "not-a-date" }

/-- C3 (evaluation): with an unparseable `createdAt` the render still
succeeds — no error is raised — but the date block draws the literal string
"Invalid Date" (because `toLocaleDateString` on an Invalid Date returns that
string instead of throwing, the catch-based fallback never runs); only when
the date fields are absent altogether does the block show the formatted
current date. -/
theorem invalid_date_renders_invalid_date :
    invoiceDateString env0 oBD = "Invalid Date" ∧
    (generateInvoicePDF env0 oBD u0).isOk = true ∧
    Ev.text st12b "Invalid Date" margin (invoiceInfoY + 50)
      ∈ (generateInvoicePDF env0 oBD u0).trace ∧
    invoiceDateString env0 o0 = env0.fmtDate (env0.nowMs : ℚ) ∧
    env0.fmtDate (env0.nowMs : ℚ) = "11 October 2026" ∧
    Ev.text st12b (invoiceDateString env0 o0) margin (invoiceInfoY + 50)
      ∈ (generateInvoicePDF env0 o0 u0).trace ∧
    ("Invalid Date" : String) ≠ "11 October 2026" := by
  have h1 : invoiceDateString env0 oBD = "Invalid Date" := rfl
  refine ⟨h1, by simp [generateInvoicePDF, RenderResult.isOk, oBD, o0], ?_, rfl, rfl, ?_,
    by decide⟩
  · rw [← h1, generate_trace_eq env0 oBD u0 it0 [] rfl]
    simp [preTableEvs, headerEvs]
  · rw [generate_trace_eq env0 o0 u0 it0 [] rfl]
    simp [preTableEvs, headerEvs]

/-! ### C8: money formatting -/

/-- Item with a non-numeric, non-empty price string. -/
def itN : Item := { name := "Kurti", quantity := 1, price := JSVal.str "abc" }

/-- Order containing the NaN-price item. -/
def oN : Order := { orderId := "A2", items := .arr [itN], subtotal := .num 0, total := .num 0 }

/-- C8 (counterexample): `parseFloat("abc" || 0)` is `NaN`, and the rendered
price cell of that item is the malformed string "Rs. NaN" — refuting the
claim that an invalid input value is coerced to 0 and the rendered string is
never malformed. -/
theorem money_nan_counterexample :
    itemPrice itN = JNum.nan ∧
    lineTotalOf itN = JNum.nan ∧
    moneyStr (itemPrice itN) = "Rs. NaN" ∧
    (generateInvoicePDF env0 oN u0).isOk = true ∧
    Ev.text st10 (moneyStr (itemPrice itN)) colPrice itemsStartY
      ∈ (generateInvoicePDF env0 oN u0).trace := by
  refine ⟨rfl, rfl, rfl, by simp [generateInvoicePDF, RenderResult.isOk, oN], ?_⟩
  rw [generate_trace_eq env0 oN u0 itN [] rfl,
    drawRows_cons_nobreak env0 itN [] 0 itemsStartY thr_lt_start_false]
  simp [rowEvs]

theorem digitChar_isDigit : ∀ k : ℕ, k < 10 → (Nat.digitChar k).isDigit = true := by decide

/-- C8 (amended): every finite monetary value is rendered as an optional
sign and integer part followed by a dot and exactly two decimal digit
characters; a missing (`undefined`) or empty value is coerced to 0 by
`parseFloat(value || 0)` and renders as "0.00"; every money string carries
the "Rs. " prefix; but `NaN` (from a non-numeric non-empty string) renders
as "NaN". -/
theorem money_format_ok :
    (∀ q : ℚ, ∃ s m, m < 100 ∧
      jToFixed2 (JNum.num q) = s ++ "." ++ twoDigitStr m ∧
      (twoDigitStr m).length = 2 ∧
      (∀ c ∈ (twoDigitStr m).data, c.isDigit = true)) ∧
    jsParseFloat (jsOr JSVal.undef (JSVal.num 0)) = JNum.num 0 ∧
    jsParseFloat (jsOr (JSVal.str "") (JSVal.num 0)) = JNum.num 0 ∧
    jToFixed2 (jsParseFloat (jsOr JSVal.undef (JSVal.num 0))) = "0.00" ∧
    (∀ v : JNum, moneyStr v = "Rs. " ++ jToFixed2 v) ∧
    jToFixed2 JNum.nan = "NaN" := by
  refine ⟨?_, rfl, rfl, ?_, fun v => rfl, rfl⟩
  · intro q
    refine ⟨(if q < 0 then "-" else "") ++
        Nat.repr ((200 * q.num.natAbs + q.den) / (2 * q.den) / 100),
      (200 * q.num.natAbs + q.den) / (2 * q.den) % 100,
      Nat.mod_lt _ (by norm_num), rfl, rfl, ?_⟩
    intro c hc
    have hm : (200 * q.num.natAbs + q.den) / (2 * q.den) % 100 < 100 :=
      Nat.mod_lt _ (by norm_num)
    have hc2 : c ∈ [Nat.digitChar ((200 * q.num.natAbs + q.den) / (2 * q.den) % 100 / 10),
        Nat.digitChar ((200 * q.num.natAbs + q.den) / (2 * q.den) % 100 % 10)] := hc
    simp only [List.mem_cons, List.not_mem_nil, or_false] at hc2
    rcases hc2 with rfl | rfl
    · exact digitChar_isDigit _ (by omega)
    · exact digitChar_isDigit _ (Nat.mod_lt _ (by norm_num))
  · norm_num [jsParseFloat, jsOr, jsTruthy, jToFixed2, fixed2, twoDigitStr]
    decide

/-- Closed instance of the amended C8 theorem at the value 0. -/
theorem money_format_ok_witness :
    ∃ s m, m < 100 ∧
      jToFixed2 (JNum.num 0) = s ++ "." ++ twoDigitStr m ∧
      (twoDigitStr m).length = 2 ∧
      (∀ c ∈ (twoDigitStr m).data, c.isDigit = true) :=
  money_format_ok.1 0

/-! ### C7: filenames, open mode and run-to-run uniqueness

`Nat.repr` is proved injective by decoding the decimal digits back. -/

theorem digitChar_val : ∀ k : ℕ, k < 10 → (Nat.digitChar k).toNat - 48 = k := by decide

theorem foldl_toDigitsCore :
    ∀ (f n : ℕ) (acc : List Char), n < f →
      (Nat.toDigitsCore 10 f n acc).foldl (fun a c => 10 * a + (c.toNat - 48)) 0 =
        acc.foldl (fun a c => 10 * a + (c.toNat - 48)) n := by
  intro f
  induction f with
  | zero => intro n acc h; exact absurd h (Nat.not_lt_zero n)
  | succ f ih =>
    intro n acc h
    by_cases h0 : n / 10 = 0
    · have hn10 : n < 10 := by omega
      have hmod : n % 10 = n := Nat.mod_eq_of_lt hn10
      simp only [Nat.toDigitsCore, h0, if_pos, List.foldl_cons]
      rw [hmod, digitChar_val n hn10]
      norm_num
    · have hlt : n / 10 < f := by
        have hs : n / 10 < n := Nat.div_lt_self (by omega) (by norm_num)
        omega
      simp only [Nat.toDigitsCore, h0, if_neg, not_false_iff]
      rw [ih (n / 10) (Nat.digitChar (n % 10) :: acc) hlt]
      simp only [List.foldl_cons]
      rw [digitChar_val (n % 10) (Nat.mod_lt n (by norm_num))]
      rw [Nat.div_add_mod]

theorem digitsVal_repr (n : ℕ) : digitsVal (Nat.repr n).data = n := by
  have h := foldl_toDigitsCore (n + 1) n [] (Nat.lt_succ_self n)
  simpa [digitsVal, Nat.repr, Nat.toDigits, List.asString] using h

theorem natRepr_inj (m n : ℕ) (h : Nat.repr m = Nat.repr n) : m = n := by
  have h2 := congrArg (fun s => digitsVal s.data) h
  simpa [digitsVal_repr] using h2

/-- Drawing events: everything except filesystem effects. -/
def isDrawing : Ev → Bool
  | .mkdir _ => false
  | .openStream _ _ => false
  | _ => true

/-- Every stream in the trace is opened with the default `"w"` flags. -/
def streamFlagsW : Ev → Bool
  | .openStream _ fl => fl == "w"
  | _ => true

theorem jsOr_truthy (a b : JSVal) (h : jsTruthy a = true) : jsOr a b = a := by
  simp [jsOr, h]

theorem jsNewDate_nowMs (env : Env) (m2 : ℕ) (v : JSVal) :
    jsNewDate { env with nowMs := m2 } v = jsNewDate env v := by
  cases v <;> rfl

theorem invoiceDateString_nowMs (env : Env) (m2 : ℕ) (o : Order)
    (h : jsTruthy o.createdAt = true) :
    invoiceDateString { env with nowMs := m2 } o = invoiceDateString env o := by
  simp only [invoiceDateString, jsOr_truthy _ _ h, jsNewDate_nowMs]
  cases jsNewDate env o.createdAt <;> rfl

theorem headerEvs_nowMs (env : Env) (m2 : ℕ) (o : Order)
    (h : jsTruthy o.createdAt = true) :
    headerEvs { env with nowMs := m2 } o = headerEvs env o := by
  simp only [headerEvs, invoiceDateString_nowMs env m2 o h]
  rfl

theorem rowEvs_nowMs (env : Env) (m2 : ℕ) (idx : ℕ) (it : Item) (y : ℚ) :
    rowEvs { env with nowMs := m2 } idx it y = rowEvs env idx it y := rfl

theorem rowHeightOf_nowMs (env : Env) (m2 : ℕ) (it : Item) :
    rowHeightOf { env with nowMs := m2 } it = rowHeightOf env it := rfl

theorem drawRows_nowMs (env : Env) (m2 : ℕ) :
    ∀ (l : List Item) (idx : ℕ) (y : ℚ),
      drawRows { env with nowMs := m2 } l idx y = drawRows env l idx y := by
  intro l
  induction l with
  | nil => intro idx y; rfl
  | cons it rest ih =>
    intro idx y
    simp only [drawRows, rowEvs_nowMs, rowHeightOf_nowMs, ih]

theorem filter_isDrawing_preTable (env : Env) (m2 : ℕ) (o : Order) (u : JUser)
    (h : jsTruthy o.createdAt = true) :
    (preTableEvs { env with nowMs := m2 } o u).filter isDrawing =
      (preTableEvs env o u).filter isDrawing := by
  simp only [preTableEvs, List.filter_append, headerEvs_nowMs env m2 o h]
  cases hd : env.dirExists <;> simp [isDrawing]

/-- C7 (amended): the artifact reference follows the convention
`/uploads/invoices/invoice-<orderId>-<epochMillis>.pdf`; the output stream
is opened with the default create-or-truncate flags `"w"` (not in exclusive
mode), so uniqueness rests solely on the timestamp; two renders with
distinct timestamps yield distinct references; and, when `createdAt` is a
truthy value, the drawing events of two renders differing only in timestamp
are identical (structurally identical document content). -/
theorem filename_unique_ok :
    ∀ (env : Env) (o : Order) (u : JUser) (it : Item) (rest : List Item),
      o.items = .arr (it :: rest) →
      (generateInvoicePDF env o u).ref = some ("/uploads/invoices/" ++
        ("invoice-" ++ o.orderId ++ "-" ++ Nat.repr env.nowMs ++ ".pdf")) ∧
      Ev.openStream (invoicesDir ++ "/" ++ invoiceFileName env o) "w"
        ∈ (generateInvoicePDF env o u).trace ∧
      (∀ m2 : ℕ, m2 ≠ env.nowMs →
        (generateInvoicePDF { env with nowMs := m2 } o u).ref ≠
          (generateInvoicePDF env o u).ref) ∧
      (jsTruthy o.createdAt = true → ∀ m2 : ℕ,
        ((generateInvoicePDF { env with nowMs := m2 } o u).trace.filter isDrawing) =
          ((generateInvoicePDF env o u).trace.filter isDrawing)) := by
  intro env o u it rest hit
  refine ⟨by rw [generate_ref_eq env o u it rest hit]; rfl, ?_, ?_, ?_⟩
  · rw [generate_trace_eq env o u it rest hit]
    simp [preTableEvs]
  · intro m2 hne heq
    rw [generate_ref_eq { env with nowMs := m2 } o u it rest hit,
      generate_ref_eq env o u it rest hit] at heq
    have hs := Option.some.inj heq
    have hd := congrArg String.data hs
    simp only [invoiceFileName, String.data_append, ← List.append_assoc] at hd
    have h2 := List.append_cancel_right hd
    have h3 := List.append_cancel_left h2
    exact hne (natRepr_inj m2 env.nowMs (String.ext h3))
  · intro hcr m2
    rw [generate_trace_eq { env with nowMs := m2 } o u it rest hit,
      generate_trace_eq env o u it rest hit]
    simp only [List.filter_append, drawRows_nowMs env m2,
      filter_isDrawing_preTable env m2 o u hcr]

/-- C7 (counterexample): at a concrete input the render succeeds and its
only stream-open event uses the default `"w"` (create-or-truncate) flags —
no stream is opened in exclusive (`"wx"`) mode. -/
theorem exclusive_mode_counterexample :
    (generateInvoicePDF env0 o0 u0).isOk = true ∧
    Ev.openStream (invoicesDir ++ "/" ++ invoiceFileName env0 o0) "w"
      ∈ (generateInvoicePDF env0 o0 u0).trace ∧
    ((generateInvoicePDF env0 o0 u0).trace.all streamFlagsW) = true := by
  have hs : jgtZero (jsParseFloat (jsOr JSVal.undef (JSVal.num 0))) = false := by
    norm_num [jsOr, jsTruthy, jsParseFloat, jgtZero]
  refine ⟨by simp [generateInvoicePDF, RenderResult.isOk, o0], ?_, ?_⟩
  · rw [generate_trace_eq env0 o0 u0 it0 [] rfl]
    simp [preTableEvs]
  · rw [generate_trace_eq env0 o0 u0 it0 [] rfl,
      drawRows_cons_nobreak env0 it0 [] 0 itemsStartY thr_lt_start_false]
    simp [List.all_append, preTableEvs, headerEvs, billingEvs, billingEmailEvs,
      billingMobileEvs, billingAddrEvs, env0, o0, u0, logoPathFound, logoPaths, jsOrS,
      drawRows, rowEvs, totalsEvs, hs, footerEvs, streamFlagsW, tableHeaderEvs,
      if_neg thr_lt_start_false]

/-- Closed instance of the amended C7 theorem: the reference formula and the
distinctness of two renders with different timestamps. -/
theorem filename_unique_ok_witness :
    (generateInvoicePDF env0 o0 u0).ref = some ("/uploads/invoices/" ++
      ("invoice-" ++ o0.orderId ++ "-" ++ Nat.repr env0.nowMs ++ ".pdf")) ∧
    (generateInvoicePDF { env0 with nowMs := 1 } o0 u0).ref ≠
      (generateInvoicePDF env0 o0 u0).ref :=
  ⟨(filename_unique_ok env0 o0 u0 it0 [] rfl).1,
   (filename_unique_ok env0 o0 u0 it0 [] rfl).2.2.1 1 (by decide)⟩

/-! ### C10: password-reset tokens are one-time and stored hashed -/

theorem updateFirst_some {α} (p : α → Bool) (f : α → α) :
    ∀ (l l2 : List α), updateFirst p f l = some l2 →
      ∃ pre x post, l = pre ++ x :: post ∧ l2 = pre ++ f x :: post ∧ p x = true ∧
        ∀ y ∈ pre, p y = false := by
  intro l
  induction l with
  | nil => intro l2 h; simp [updateFirst] at h
  | cons a rest ih =>
    intro l2 h
    by_cases hp : p a
    · rw [updateFirst, if_pos hp] at h
      exact ⟨[], a, rest, rfl, by simp [← Option.some.inj h], hp, by simp⟩
    · rw [updateFirst, if_neg hp] at h
      cases hrec : updateFirst p f rest with
      | none => rw [hrec] at h; simp at h
      | some l3 =>
        rw [hrec] at h
        simp at h
        rcases ih l3 hrec with ⟨pre, x, post, h1, h2, h3, h4⟩
        refine ⟨a :: pre, x, post, by simp [h1], by simp [← h, h2], h3, ?_⟩
        intro y hy
        rcases List.mem_cons.1 hy with rfl | hy2
        · simpa using hp
        · exact h4 y hy2

theorem updateFirst_none {α} (p : α → Bool) (f : α → α) :
    ∀ l : List α, updateFirst p f l = none ↔ ∀ x ∈ l, p x = false := by
  intro l
  induction l with
  | nil => simp [updateFirst]
  | cons a rest ih =>
    by_cases hp : p a
    · simp [updateFirst, if_pos hp, hp]
    · simp only [updateFirst, if_neg hp, Option.map_eq_none', ih, List.mem_cons]
      constructor
      · intro hall x hx
        rcases hx with rfl | hx2
        · simpa using hp
        · exact hall x hx2
      · intro hall x hx
        exact hall x (Or.inr hx)

/-- C10: with SHA-256 as an injective abstract hash, (a) forgot-password
stores the hash of the issued token with an expiry one hour ahead; (b) over
any database whose stored reset hashes all come from nonempty tokens,
reset-password succeeds if and only if the new password has length at least
8 and some user's stored hash equals the hash of the presented token with a
stored expiry strictly later than now; and (c) a successful reset clears the
reset columns of the unique matching user, so a second reset with the same
token cannot succeed. -/
theorem password_reset_flow_ok :
    ∀ (hash : String → String), Function.Injective hash →
    ∀ db : List AuthUser,
      (∀ (email rt : String) (now : ℕ) (db2 : List AuthUser),
        forgotPassword hash db email rt now = (.sent, db2) →
        ∃ u ∈ db2, u.passwordResetToken = some (hash rt) ∧
          u.passwordResetExpires = some (now + 60 * 60 * 1000)) ∧
      (∀ (token newPassword : String) (now : ℕ),
        (∀ u ∈ db, ∀ h0, u.passwordResetToken = some h0 →
          ∃ t, t ≠ "" ∧ h0 = hash t) →
        ((resetPassword hash db token newPassword now).1 = .success ↔
          8 ≤ newPassword.length ∧
          ∃ u ∈ db, u.passwordResetToken = some (hash token) ∧
            ∃ e, u.passwordResetExpires = some e ∧ now < e)) ∧
      (∀ (token newPassword : String) (now : ℕ) (db2 : List AuthUser),
        resetPassword hash db token newPassword now = (.success, db2) →
        db.countP (fun u => u.passwordResetToken == some (hash token)) ≤ 1 →
        (∀ u ∈ db2, u.passwordResetToken ≠ some (hash token)) ∧
        (∀ (np2 : String) (n2 : ℕ),
          (resetPassword hash db2 token np2 n2).1 ≠ .success)) := by
  intro hash hinj db
  refine ⟨?_, ?_, ?_⟩
  · -- (a) forgot-password stores hash and expiry
    intro email rt now db2 h
    simp only [forgotPassword] at h
    cases hup : updateFirst (fun u => u.email == email)
        (fun u => { u with passwordResetToken := some (hash rt),
                           passwordResetExpires := some (now + 60 * 60 * 1000) }) db with
    | none => rw [hup] at h; simp at h
    | some db3 =>
      rw [hup] at h
      simp only [Prod.mk.injEq] at h
      rcases updateFirst_some _ _ db db3 hup with ⟨pre, x, post, h1, h2, h3, h4⟩
      refine ⟨{ x with passwordResetToken := some (hash rt),
                       passwordResetExpires := some (now + 60 * 60 * 1000) }, ?_, rfl, rfl⟩
      rw [← h.2, h2]
      simp
  · -- (b) the success iff
    intro token newPassword now hwf
    constructor
    · intro hsucc
      by_cases hguard : token = "" ∨ newPassword = ""
      · rw [resetPassword, if_pos hguard] at hsucc; exact absurd hsucc (by simp)
      · by_cases hlen : newPassword.length < 8
        · rw [resetPassword, if_neg hguard, if_pos hlen] at hsucc
          exact absurd hsucc (by simp)
        · rw [resetPassword, if_neg hguard, if_neg hlen] at hsucc
          cases hup : updateFirst (resetMatches hash token now)
              (fun u => { u with password := newPassword, passwordResetToken := none,
                                 passwordResetExpires := none }) db with
          | none => rw [hup] at hsucc; exact absurd hsucc (by simp)
          | some db3 =>
            rcases updateFirst_some _ _ db db3 hup with ⟨pre, x, post, h1, _, h3, _⟩
            refine ⟨by omega, x, by simp [h1], ?_⟩
            simp only [resetMatches, Bool.and_eq_true, beq_iff_eq] at h3
            refine ⟨h3.1, ?_⟩
            rcases hexp : x.passwordResetExpires with _ | e
            · rw [hexp] at h3; simp at h3
            · rw [hexp] at h3
              exact ⟨e, rfl, by simpa using h3.2⟩
    · rintro ⟨hlen, u, hu, htok, e, hexp, hlt⟩
      have htok_ne : token ≠ "" := by
        intro h0
        rcases hwf u hu (hash token) htok with ⟨t, htne, hht⟩
        have heq : token = t := hinj hht
        exact htne (by rw [← heq, h0])
      have hnp_ne : newPassword ≠ "" := by
        intro h0
        rw [h0] at hlen
        simp [String.length] at hlen
      rw [resetPassword, if_neg (by simp [htok_ne, hnp_ne]), if_neg (by omega)]
      cases hup : updateFirst (resetMatches hash token now)
          (fun u => { u with password := newPassword, passwordResetToken := none,
                             passwordResetExpires := none }) db with
      | none =>
        exfalso
        have hall := (updateFirst_none _ _ db).1 hup u hu
        simp [resetMatches, htok, hexp, hlt] at hall
      | some db3 => simp
  · -- (c) one-time use
    intro token newPassword now db2 hsucc hcount
    by_cases hguard : token = "" ∨ newPassword = ""
    · rw [resetPassword, if_pos hguard] at hsucc; simp at hsucc
    · by_cases hlen : newPassword.length < 8
      · rw [resetPassword, if_neg hguard, if_pos hlen] at hsucc; simp at hsucc
      · rw [resetPassword, if_neg hguard, if_neg hlen] at hsucc
        cases hup : updateFirst (resetMatches hash token now)
            (fun u => { u with password := newPassword, passwordResetToken := none,
                               passwordResetExpires := none }) db with
        | none => rw [hup] at hsucc; simp at hsucc
        | some db3 =>
          rw [hup] at hsucc
          simp only [Prod.mk.injEq] at hsucc
          rcases updateFirst_some _ _ db db3 hup with ⟨pre, x, post, h1, h2, h3, _⟩
          have hqx : (x.passwordResetToken == some (hash token)) = true := by
            simp only [resetMatches, Bool.and_eq_true] at h3
            exact h3.1
          have hzero : pre.countP (fun u => u.passwordResetToken == some (hash token)) = 0 ∧
              post.countP (fun u => u.passwordResetToken == some (hash token)) = 0 := by
            rw [h1] at hcount
            simp only [List.countP_append, List.countP_cons, hqx, if_pos] at hcount
            omega
          have hnomatch : ∀ u ∈ db2, u.passwordResetToken ≠ some (hash token) := by
            intro u hu
            rw [← hsucc.2, h2] at hu
            rcases List.mem_append.1 hu with hupre | humid
            · intro hbad
              have := List.countP_eq_zero.1 hzero.1 u hupre
              simp [hbad] at this
            · rcases List.mem_cons.1 humid with rfl | hupost
              · simp
              · intro hbad
                have := List.countP_eq_zero.1 hzero.2 u hupost
                simp [hbad] at this
          refine ⟨hnomatch, ?_⟩
          intro np2 n2
          by_cases hg2 : token = "" ∨ np2 = ""
          · rw [resetPassword, if_pos hg2]; simp
          · by_cases hl2 : np2.length < 8
            · rw [resetPassword, if_neg hg2, if_pos hl2]; simp
            · rw [resetPassword, if_neg hg2, if_neg hl2]
              have hnone : updateFirst (resetMatches hash token n2)
                  (fun u => { u with password := np2, passwordResetToken := none,
                                     passwordResetExpires := none }) db2 = none := by
                rw [updateFirst_none]
                intro u hu
                have hb : (u.passwordResetToken == some (hash token)) = false := by
                  rw [beq_eq_false_iff_ne]
                  exact hnomatch u hu
                simp [resetMatches, hb]
              rw [hnone]
              simp

/-- Concrete injective stand-in for SHA-256. -/
def hash0 : String → String := fun s => String.mk ('#' :: s.data)

theorem hash0_inj : Function.Injective hash0 := by
  intro a b h
  apply String.ext
  have h2 := congrArg String.data h
  simpa [hash0] using h2

/-- Concrete one-user database with a stored reset-token hash. -/
def dbW : List AuthUser :=
  [{ email := "a@b.c", password := "oldpassword",
     passwordResetToken := some (hash0 "tok123"), passwordResetExpires := some 2000 }]

/-- Closed instance of the C10 theorem: on the concrete database, the reset
with the matching token, a long-enough password and an unexpired stored
token succeeds. -/
theorem password_reset_flow_ok_witness :
    (resetPassword hash0 dbW "tok123" "newpassword1" 1000).1 = ResetOutcome.success := by
  have hwf : ∀ u ∈ dbW, ∀ h0, u.passwordResetToken = some h0 →
      ∃ t, t ≠ "" ∧ h0 = hash0 t := by
    intro u hu h0 hst
    simp only [dbW, List.mem_singleton] at hu
    subst hu
    simp only [Option.some.injEq] at hst
    exact ⟨"tok123", by decide, hst.symm⟩
  exact ((password_reset_flow_ok hash0 hash0_inj dbW).2.1 "tok123" "newpassword1" 1000
    hwf).mpr ⟨by decide,
      ⟨{ email := "a@b.c", password := "oldpassword",
         passwordResetToken := some (hash0 "tok123"), passwordResetExpires := some 2000 },
       by simp [dbW], rfl, 2000, rfl, by norm_num⟩⟩

end AF
